import Mathlib

/-!
Shallow embedding of the AssetVerse server (`src/index.js`, second revision:
the one with `verifyHR`/`verifyEmployee` middleware and the
`/requests/:id/approve`, `/requests/:id/reject`, `/assigned-assets/:id/return`,
`/employees/:email/remove`, `POST /requests` handlers).

MongoDB collections are modelled as Lean lists in insertion (natural) order:
`findOne` is `List.find?`, `updateOne` updates the first matching document
(`updateFirst` below), `insertOne` appends.  JavaScript numbers used as
counters (`availableQuantity`, `currentEmployees`, `packageLimit`) are `Int`
since `$inc` can drive them negative.  Dates are abstracted as a `Nat`
timestamp passed to each operation.  Generated `_id`s come from a `nextId`
counter in the database state.
-/

namespace AssetVerse

/-- MongoDB `updateOne`: apply `f` to the first element of the list
satisfying `p`, leave everything else unchanged. -/
def updateFirst (p : α → Bool) (f : α → α) : List α → List α
  | [] => []
  | x :: xs => if p x then f x :: xs else x :: updateFirst p f xs

theorem updateFirst_nil (p : α → Bool) (f : α → α) : updateFirst p f [] = [] := rfl

theorem updateFirst_cons (p : α → Bool) (f : α → α) (x : α) (xs : List α) :
    updateFirst p f (x :: xs) =
      if p x then f x :: xs else x :: updateFirst p f xs := rfl

/-- If no element matches, `updateOne` is a no-op. -/
theorem updateFirst_eq_self (p : α → Bool) (f : α → α) (l : List α)
    (h : ∀ x ∈ l, p x = false) : updateFirst p f l = l := by
  induction l with
  | nil => rfl
  | cons x xs ih =>
    rw [updateFirst_cons, if_neg (by simp [h x (List.mem_cons_self x xs)])]
    rw [ih fun y hy => h y (List.mem_cons_of_mem x hy)]

/-- Every element of the updated list is an old element or the image of an
old element that matched. -/
theorem mem_updateFirst {p : α → Bool} {f : α → α} {l : List α} {x : α}
    (hx : x ∈ updateFirst p f l) : x ∈ l ∨ ∃ y ∈ l, p y = true ∧ x = f y := by
  induction l with
  | nil => simp [updateFirst] at hx
  | cons a as ih =>
    rw [updateFirst_cons] at hx
    by_cases hp : p a = true
    · rw [if_pos hp] at hx
      rcases List.mem_cons.mp hx with h | h
      · exact Or.inr ⟨a, List.mem_cons_self a as, hp, h⟩
      · exact Or.inl (List.mem_cons_of_mem a h)
    · rw [if_neg hp] at hx
      rcases List.mem_cons.mp hx with h | h
      · exact Or.inl (h ▸ List.mem_cons_self a as)
      · rcases ih h with h' | ⟨y, hy, hpy, hxy⟩
        · exact Or.inl (List.mem_cons_of_mem a h')
        · exact Or.inr ⟨y, List.mem_cons_of_mem a hy, hpy, hxy⟩

/-- `updateOne` preserves any projection that `f` preserves (for example, the
`_id` of every document). -/
theorem map_updateFirst (g : α → β) (p : α → Bool) (f : α → α)
    (hf : ∀ x, g (f x) = g x) (l : List α) :
    (updateFirst p f l).map g = l.map g := by
  induction l with
  | nil => rfl
  | cons x xs ih =>
    rw [updateFirst_cons]
    by_cases hp : p x = true
    · rw [if_pos hp, List.map_cons, List.map_cons, hf]
    · rw [if_neg hp, List.map_cons, List.map_cons, ih]

/-- Counting after `updateOne`: exactly the first match (i.e. the `find?`
result) changes, so `countP` moves by the difference of its two indicator
values.  Stated over `Int` so the difference is meaningful. -/
theorem countP_updateFirst (q p : α → Bool) (f : α → α) (l : List α) :
    ((updateFirst p f l).countP q : Int) =
      (l.countP q : Int) +
        (match l.find? p with
         | none => 0
         | some y => (if q (f y) then (1 : Int) else 0) - (if q y then 1 else 0)) := by
  induction l with
  | nil => simp [updateFirst]
  | cons x xs ih =>
    rw [updateFirst_cons]
    by_cases hp : p x = true
    · rw [if_pos hp, List.find?_cons_of_pos _ hp, List.countP_cons, List.countP_cons]
      push_cast
      by_cases hq : q x = true <;> by_cases hqf : q (f x) = true <;>
        simp only [hq, hqf, if_true, if_false] <;> ring
    · rw [if_neg hp, List.find?_cons_of_neg _ hp, List.countP_cons, List.countP_cons]
      push_cast
      rw [ih]
      cases hfind : xs.find? p with
      | none => simp only [hfind]; ring
      | some y => simp only [hfind]; ring

/-- Looking a document up by key after a key-preserving `updateOne` keyed on a
possibly different key: the lookup result is the old one, with `f` applied
exactly when the two keys coincide. -/
theorem find?_key_updateFirst [BEq β] [LawfulBEq β] [DecidableEq β]
    (g : α → β) (f : α → α) (hf : ∀ x, g (f x) = g x) (n m : β) (l : List α) :
    (updateFirst (fun x => g x == n) f l).find? (fun x => g x == m) =
      if n = m then (l.find? (fun x => g x == m)).map f
      else l.find? (fun x => g x == m) := by
  induction l with
  | nil => cases Decidable.em (n = m) with
    | inl h => rw [if_pos h]; rfl
    | inr h => rw [if_neg h]; rfl
  | cons x xs ih =>
    rw [updateFirst_cons]
    by_cases hn : g x = n
    · rw [if_pos (show (g x == n) = true by simp [hn])]
      by_cases hm : n = m
      · subst hm
        rw [if_pos rfl, List.find?_cons, List.find?_cons]
        simp [hf, hn]
      · have hxm : (g x == m) = false := by
          simp only [beq_eq_false_iff_ne, ne_eq]
          rw [hn]; exact hm
        rw [if_neg hm, List.find?_cons, List.find?_cons]
        simp [hf, hxm]
    · rw [if_neg (by simp [hn]), List.find?_cons, List.find?_cons]
      by_cases hm : g x = m
      · have hne : n ≠ m := fun h => hn (h ▸ hm)
        simp [hm, hne]
      · have hxm : (g x == m) = false := by simpa using hm
        simp only [hxm]
        exact ih

/-- With pairwise-distinct keys, `find?` by key returns the unique member
carrying that key. -/
theorem find?_key_of_nodup [BEq β] [LawfulBEq β] (g : α → β) (l : List α)
    (hnd : (l.map g).Nodup) (d : α) (hd : d ∈ l) (hk : g d = n) :
    l.find? (fun x => g x == n) = some d := by
  induction l with
  | nil => simp at hd
  | cons x xs ih =>
    have hnd' : (∀ y ∈ xs, ¬ g y = g x) ∧ (List.map g xs).Nodup := by simpa using hnd
    rcases List.mem_cons.mp hd with h | h
    · subst h
      rw [List.find?_cons]
      simp [hk]
    · have hx : (g x == n) = false := by
        simp only [beq_eq_false_iff_ne, ne_eq]
        intro hxe
        exact hnd'.1 d h (hk.trans hxe.symm)
      rw [List.find?_cons]
      simp only [hx]
      exact ih hnd'.2 h

/-- With pairwise-distinct keys, `updateOne` keyed by key is the pointwise
map rewriting exactly the matching document. -/
theorem updateFirst_key_eq_map [BEq β] [LawfulBEq β] [DecidableEq β]
    (g : α → β) (f : α → α) (n : β) (l : List α) (hnd : (l.map g).Nodup) :
    updateFirst (fun x => g x == n) f l =
      l.map (fun x => if g x = n then f x else x) := by
  induction l with
  | nil => rfl
  | cons x xs ih =>
    have hnd' : (∀ y ∈ xs, ¬ g y = g x) ∧ (List.map g xs).Nodup := by simpa using hnd
    rw [updateFirst_cons, List.map_cons]
    by_cases hx : g x = n
    · rw [if_pos (show (g x == n) = true by simp [hx]), if_pos hx]
      congr 1
      have hrest : ∀ y ∈ xs, ¬ g y = n := fun y hy hyn =>
        hnd'.1 y hy (hyn.trans hx.symm)
      symm
      calc xs.map (fun y => if g y = n then f y else y)
          = xs.map (fun y => y) :=
            List.map_congr_left fun y hy => by rw [if_neg (hrest y hy)]
        _ = xs := List.map_id' xs
    · rw [if_neg (by simp [hx]), if_neg hx, ih hnd'.2]

/-! ## Data model

One structure per MongoDB document shape, fields named as in `src/index.js`.
`id` stands for the Mongo `_id`.  A `User` is a `users` document: `role` is
`"hr"` or `"employee"`; `packageLimit = 0` models the JavaScript falsy
"unset" limit (`POST /user` defaults it to `0`); `companyAffiliations` is
the array maintained by `$addToSet` / `$pull` in the approve and remove
handlers. -/

/-- Element of `User.companyAffiliations` (see the `$addToSet` in the
approve handler). -/
structure CompanyAffiliation where
  companyName : String
  approvedBy : String
  approvedAt : Nat
deriving DecidableEq

/-- A `users` document. -/
structure User where
  email : String
  role : String
  name : String
  companyName : String
  packageLimit : Int
  currentEmployees : Int
  companyAffiliations : List CompanyAffiliation
deriving DecidableEq

/-- An `assets` document (shape inserted by `POST /assets`). -/
structure Asset where
  id : Nat
  name : String
  type : String
  quantity : Int
  availableQuantity : Int
  productImage : String
  hrEmail : String
  companyName : String
deriving DecidableEq

/-- A `requests` document (shape inserted by `POST /requests`). -/
structure Request where
  id : Nat
  assetId : Nat
  assetName : String
  assetType : String
  assetImage : String
  requesterEmail : String
  requesterName : String
  hrEmail : String
  companyName : String
  requestDate : Nat
  requestStatus : String
  note : String
  approvalDate : Option Nat
  processedBy : Option String
deriving DecidableEq

/-- An `assignedAssets` document (shape inserted by the approve handler). -/
structure AssignedAsset where
  id : Nat
  assetId : Nat
  assetName : String
  assetType : String
  employeeEmail : String
  employeeName : String
  hrEmail : String
  companyName : String
  assignmentDate : Nat
  status : String
  returnDate : Option Nat
deriving DecidableEq

/-- An `employeeAffiliations` document (shape inserted by the approve
handler). -/
structure EmployeeAffiliation where
  id : Nat
  employeeEmail : String
  employeeName : String
  hrEmail : String
  companyName : String
  affiliationDate : Nat
  status : String
deriving DecidableEq

/-- The mutable collections touched by the asset-lifecycle handlers, plus a
counter supplying fresh `_id`s for inserted documents. -/
structure DB where
  users : List User
  assets : List Asset
  requests : List Request
  assignedAssets : List AssignedAsset
  employeeAffiliations : List EmployeeAffiliation
  nextId : Nat
deriving DecidableEq

/-- An HTTP response: `res.status(...).send({ message: ... })`.  A plain
`res.send(...)` is status `200`. -/
structure Resp where
  status : Nat
  message : String
deriving DecidableEq

/-! ## Operations -/

/-- `usersCollection.findOne({ email })`. -/
def findUser (db : DB) (email : String) : Option User :=
  db.users.find? (fun u => u.email == email)

/-- The `verifyHR` middleware: the caller's user record exists and has role
`"hr"`. -/
def verifyHR (db : DB) (email : String) : Bool :=
  match findUser db email with
  | some u => u.role == "hr"
  | none => false

/-- The `verifyEmployee` middleware: the caller's user record exists and has
role `"employee"`. -/
def verifyEmployee (db : DB) (email : String) : Bool :=
  match findUser db email with
  | some u => u.role == "employee"
  | none => false

/-- The approve handler's package-limit guard
`hr?.packageLimit && hr.currentEmployees >= hr.packageLimit`: JavaScript
truthiness of `packageLimit` is "non-zero", and a missing `hr` document
short-circuits to false. -/
def limitReached (hrOpt : Option User) : Bool :=
  match hrOpt with
  | some hr => hr.packageLimit != 0 && decide (hr.currentEmployees ≥ hr.packageLimit)
  | none => false

/-- `PATCH /requests/:id/approve` (`src/index.js`, approve handler).
`callerEmail` is the verified token email, `now` the current date. -/
def approveRequest (db : DB) (callerEmail : String) (requestId : Nat)
    (now : Nat) : DB × Resp :=
  if ¬ verifyHR db callerEmail then (db, ⟨403, "HR only action!"⟩)
  else
    match db.requests.find? (fun r => r.id == requestId) with
    | none => (db, ⟨400, "Invalid request"⟩)
    | some request =>
      if request.requestStatus ≠ "pending" then (db, ⟨400, "Invalid request"⟩)
      else
        match db.assets.find? (fun a => a.id == request.assetId) with
        | none => (db, ⟨400, "Asset not available"⟩)
        | some asset =>
          if asset.availableQuantity < 1 then (db, ⟨400, "Asset not available"⟩)
          else if (db.assignedAssets.find? (fun a =>
              a.assetId == request.assetId &&
              a.employeeEmail == request.requesterEmail &&
              a.status == "assigned")).isSome then
            (db, ⟨400, "Asset already assigned"⟩)
          else
            if limitReached (findUser db request.hrEmail) then
              (db, ⟨403, "Employee limit reached. Upgrade package."⟩)
            else
              let assets1 := updateFirst (fun a => a.id == asset.id)
                (fun a => { a with availableQuantity := a.availableQuantity - 1 })
                db.assets
              let requests1 := updateFirst (fun r => r.id == requestId)
                (fun r => { r with
                  requestStatus := "approved"
                  approvalDate := some now
                  processedBy := some callerEmail })
                db.requests
              let newAssigned : AssignedAsset := {
                id := db.nextId
                assetId := request.assetId
                assetName := request.assetName
                assetType := request.assetType
                employeeEmail := request.requesterEmail
                employeeName := request.requesterName
                hrEmail := request.hrEmail
                companyName := request.companyName
                assignmentDate := now
                status := "assigned"
                returnDate := none }
              let assigned1 := db.assignedAssets ++ [newAssigned]
              if (db.employeeAffiliations.find? (fun a =>
                  a.employeeEmail == request.requesterEmail &&
                  a.hrEmail == request.hrEmail && a.status == "active")).isSome then
                ({ db with
                  assets := assets1
                  requests := requests1
                  assignedAssets := assigned1
                  nextId := db.nextId + 1 },
                  ⟨200, "Request approved successfully"⟩)
              else
                let newAffiliation : EmployeeAffiliation := {
                  id := db.nextId + 1
                  employeeEmail := request.requesterEmail
                  employeeName := request.requesterName
                  hrEmail := request.hrEmail
                  companyName := request.companyName
                  affiliationDate := now
                  status := "active" }
                let entry : CompanyAffiliation := {
                  companyName := request.companyName
                  approvedBy := request.hrEmail
                  approvedAt := now }
                let users1 := updateFirst (fun u => u.email == request.requesterEmail)
                  (fun u => { u with companyAffiliations :=
                    if entry ∈ u.companyAffiliations then u.companyAffiliations
                    else u.companyAffiliations ++ [entry] })
                  db.users
                let users2 := updateFirst (fun u => u.email == request.hrEmail)
                  (fun u => { u with currentEmployees := u.currentEmployees + 1 })
                  users1
                ({ db with
                  users := users2
                  assets := assets1
                  requests := requests1
                  assignedAssets := assigned1
                  employeeAffiliations := db.employeeAffiliations ++ [newAffiliation]
                  nextId := db.nextId + 2 },
                  ⟨200, "Request approved successfully"⟩)

/-- `PATCH /requests/:id/reject`. -/
def rejectRequest (db : DB) (callerEmail : String) (requestId : Nat)
    (now : Nat) : DB × Resp :=
  if ¬ verifyHR db callerEmail then (db, ⟨403, "HR only action!"⟩)
  else
    match db.requests.find? (fun r => r.id == requestId) with
    | none => (db, ⟨400, "Invalid request"⟩)
    | some request =>
      if request.requestStatus ≠ "pending" then (db, ⟨400, "Invalid request"⟩)
      else
        let requests1 := updateFirst (fun r => r.id == requestId)
          (fun r => { r with
            requestStatus := "rejected"
            approvalDate := some now
            processedBy := some callerEmail })
          db.requests
        ({ db with requests := requests1 }, ⟨200, "Request rejected"⟩)

/-- `PATCH /assigned-assets/:id/return`. -/
def returnAsset (db : DB) (callerEmail : String) (assignedId : Nat)
    (now : Nat) : DB × Resp :=
  if ¬ verifyEmployee db callerEmail then (db, ⟨403, "Employee only action!"⟩)
  else
    match db.assignedAssets.find? (fun a =>
        a.id == assignedId && a.employeeEmail == callerEmail) with
    | none => (db, ⟨400, "Invalid return request"⟩)
    | some assignedAsset =>
      if assignedAsset.status ≠ "assigned" then
        (db, ⟨400, "Invalid return request"⟩)
      else
        let assigned1 := updateFirst (fun a => a.id == assignedId)
          (fun a => { a with status := "returned", returnDate := some now })
          db.assignedAssets
        let assets1 := updateFirst (fun a => a.id == assignedAsset.assetId)
          (fun a => { a with availableQuantity := a.availableQuantity + 1 })
          db.assets
        let requests1 := updateFirst (fun r =>
            r.assetId == assignedAsset.assetId && r.requesterEmail == callerEmail)
          (fun r => { r with requestStatus := "returned", approvalDate := some now })
          db.requests
        ({ db with
          assignedAssets := assigned1
          assets := assets1
          requests := requests1 },
          ⟨200, "Asset returned successfully"⟩)

/-- `POST /requests`. -/
def submitRequest (db : DB) (callerEmail : String) (assetId : Nat)
    (note : String) (now : Nat) : DB × Resp :=
  if ¬ verifyEmployee db callerEmail then (db, ⟨403, "Employee only action!"⟩)
  else
    match db.assets.find? (fun a => a.id == assetId) with
    | none => (db, ⟨404, "Asset not found"⟩)
    | some asset =>
      if asset.availableQuantity < 1 then (db, ⟨400, "Asset not available"⟩)
      else if (db.requests.find? (fun r =>
          r.assetId == asset.id && r.requesterEmail == callerEmail &&
          r.requestStatus == "pending")).isSome then
        (db, ⟨400, "You already requested this asset"⟩)
      else
        match findUser db callerEmail with
        | none => (db, ⟨500, "Request creation failed"⟩)
        | some employee =>
          let newRequest : Request := {
            id := db.nextId
            assetId := asset.id
            assetName := asset.name
            assetType := asset.type
            assetImage := asset.productImage
            requesterEmail := callerEmail
            requesterName := employee.name
            hrEmail := asset.hrEmail
            companyName := if asset.companyName = "" then "N/A" else asset.companyName
            requestDate := now
            requestStatus := "pending"
            note := note
            approvalDate := none
            processedBy := none }
          ({ db with
            requests := db.requests ++ [newRequest]
            nextId := db.nextId + 1 },
            ⟨200, "Request created successfully"⟩)

/-- `PATCH /employees/:email/remove`. -/
def removeEmployee (db : DB) (callerEmail : String)
    (employeeEmail : String) : DB × Resp :=
  if ¬ verifyHR db callerEmail then (db, ⟨403, "HR only action!"⟩)
  else
    let affiliations1 := updateFirst (fun a =>
        a.employeeEmail == employeeEmail && a.hrEmail == callerEmail)
      (fun a => { a with status := "inactive" })
      db.employeeAffiliations
    let users1 := updateFirst (fun u => u.email == callerEmail)
      (fun u => { u with currentEmployees := u.currentEmployees - 1 })
      db.users
    let users2 := updateFirst (fun u => u.email == employeeEmail)
      (fun u => { u with companyAffiliations :=
        u.companyAffiliations.filter (fun c => c.approvedBy ≠ callerEmail) })
      users1
    ({ db with
      employeeAffiliations := affiliations1
      users := users2 },
      ⟨200, "Employee removed from team"⟩)

/-! ## Operation sequences -/

/-- One call to one of the five lifecycle handlers. -/
inductive Op where
  | approve (caller : String) (requestId : Nat) (now : Nat)
  | reject (caller : String) (requestId : Nat) (now : Nat)
  | ret (caller : String) (assignedId : Nat) (now : Nat)
  | submit (caller : String) (assetId : Nat) (note : String) (now : Nat)
  | remove (caller : String) (employeeEmail : String)
deriving DecidableEq

/-- The database state after one handler call (the HTTP response is
discarded). -/
def applyOp (db : DB) : Op → DB
  | Op.approve caller requestId now => (approveRequest db caller requestId now).1
  | Op.reject caller requestId now => (rejectRequest db caller requestId now).1
  | Op.ret caller assignedId now => (returnAsset db caller assignedId now).1
  | Op.submit caller assetId note now => (submitRequest db caller assetId note now).1
  | Op.remove caller employeeEmail => (removeEmployee db caller employeeEmail).1

/-- The database state after a sequence of handler calls. -/
def applyOps (db : DB) (ops : List Op) : DB :=
  ops.foldl applyOp db

theorem applyOps_nil (db : DB) : applyOps db [] = db := rfl

theorem applyOps_cons (db : DB) (op : Op) (ops : List Op) :
    applyOps db (op :: ops) = applyOps (applyOp db op) ops := rfl

/-! ## Concrete fixtures

Small concrete database states used by witnesses and counterexamples. -/

/-- An HR user of company Corp, no package bought yet. -/
def hrU : User := {
  email := "hr@corp.com"
  role := "hr"
  name := "H"
  companyName := "Corp"
  packageLimit := 0
  currentEmployees := 0
  companyAffiliations := [] }

/-- An employee user. -/
def empU : User := {
  email := "emp@mail.com"
  role := "employee"
  name := "E"
  companyName := ""
  packageLimit := 0
  currentEmployees := 0
  companyAffiliations := [] }

/-- A Corp asset with two units, both available. -/
def laptop : Asset := {
  id := 1
  name := "Laptop"
  type := "returnable"
  quantity := 2
  availableQuantity := 2
  productImage := ""
  hrEmail := "hr@corp.com"
  companyName := "Corp" }

/-- A pending request by `empU` for `laptop`. -/
def laptopReq : Request := {
  id := 2
  assetId := 1
  assetName := "Laptop"
  assetType := "returnable"
  assetImage := ""
  requesterEmail := "emp@mail.com"
  requesterName := "E"
  hrEmail := "hr@corp.com"
  companyName := "Corp"
  requestDate := 0
  requestStatus := "pending"
  note := ""
  approvalDate := none
  processedBy := none }

/-- An assignment of `laptop` to `empU`, still out. -/
def laptopAssigned : AssignedAsset := {
  id := 3
  assetId := 1
  assetName := "Laptop"
  assetType := "returnable"
  employeeEmail := "emp@mail.com"
  employeeName := "E"
  hrEmail := "hr@corp.com"
  companyName := "Corp"
  assignmentDate := 1
  status := "assigned"
  returnDate := none }

/-- An active affiliation of `empU` with `hrU`. -/
def empAffiliation : EmployeeAffiliation := {
  id := 4
  employeeEmail := "emp@mail.com"
  employeeName := "E"
  hrEmail := "hr@corp.com"
  companyName := "Corp"
  affiliationDate := 1
  status := "active" }

/-! ## Claims -/

/-- State for C2's witness: the pending request targets an asset with zero
availability. -/
def dbC2 : DB := {
  users := [hrU, empU]
  assets := [{ laptop with availableQuantity := 0 }]
  requests := [laptopReq]
  assignedAssets := []
  employeeAffiliations := []
  nextId := 10 }

/-- C2: if the targeted request is pending but its asset is absent or has
`availableQuantity = 0`, the approve handler answers 400 "Asset not
available" and leaves the whole database (all five collections) unchanged. -/
theorem C2_approve_unavailable_no_writes (db : DB) (caller : String)
    (rid : Nat) (now : Nat) (request : Request)
    (hhr : verifyHR db caller = true)
    (hreq : db.requests.find? (fun r => r.id == rid) = some request)
    (hpending : request.requestStatus = "pending")
    (hasset : db.assets.find? (fun a => a.id == request.assetId) = none ∨
      ∃ asset, db.assets.find? (fun a => a.id == request.assetId) = some asset ∧
        asset.availableQuantity = 0) :
    approveRequest db caller rid now = (db, ⟨400, "Asset not available"⟩) := by
  rcases hasset with h | ⟨asset, h, h0⟩
  · simp [approveRequest, hhr, hreq, hpending, h]
  · simp [approveRequest, hhr, hreq, hpending, h, h0]

/-- C2 witness: the general theorem applied at the concrete state `dbC2`. -/
theorem C2_witness :
    (verifyHR dbC2 "hr@corp.com" = true ∧
      (dbC2.requests.find? (fun r => r.id == 2)).map (fun r => r.requestStatus)
        = some "pending") ∧
    approveRequest dbC2 "hr@corp.com" 2 5 = (dbC2, ⟨400, "Asset not available"⟩) :=
  ⟨⟨by decide, by decide⟩,
    C2_approve_unavailable_no_writes dbC2 "hr@corp.com" 2 5 laptopReq
      (by decide) (by decide) (by decide)
      (Or.inr ⟨{ laptop with availableQuantity := 0 }, by decide, by decide⟩)⟩

/-- C9: a request that is not pending makes both the approve and the reject
handler answer 400 "Invalid request" without any write; on a pending request
the reject handler stamps `rejected`, the approver and the date, and touches
no asset quantity. -/
theorem C9_nonpending_rejected_behaviour (db : DB) (caller : String)
    (rid : Nat) (now : Nat) (request : Request)
    (hhr : verifyHR db caller = true)
    (hreq : db.requests.find? (fun r => r.id == rid) = some request) :
    (request.requestStatus ≠ "pending" →
      approveRequest db caller rid now = (db, ⟨400, "Invalid request"⟩) ∧
      rejectRequest db caller rid now = (db, ⟨400, "Invalid request"⟩)) ∧
    (request.requestStatus = "pending" →
      (rejectRequest db caller rid now).2 = ⟨200, "Request rejected"⟩ ∧
      (rejectRequest db caller rid now).1.assets = db.assets ∧
      (rejectRequest db caller rid now).1.requests.find? (fun r => r.id == rid) =
        some { request with
          requestStatus := "rejected"
          approvalDate := some now
          processedBy := some caller }) := by
  constructor
  · intro hnp
    constructor
    · simp [approveRequest, hhr, hreq, hnp]
    · simp [rejectRequest, hhr, hreq, hnp]
  · intro hp
    refine ⟨by simp [rejectRequest, hhr, hreq, hp], by simp [rejectRequest, hhr, hreq, hp], ?_⟩
    have hres : (rejectRequest db caller rid now).1.requests =
        updateFirst (fun r => r.id == rid)
          (fun r => { r with
            requestStatus := "rejected"
            approvalDate := some now
            processedBy := some caller })
          db.requests := by
      simp [rejectRequest, hhr, hreq, hp]
    rw [hres, find?_key_updateFirst Request.id
      (fun r => { r with
        requestStatus := "rejected"
        approvalDate := some now
        processedBy := some caller })
      (fun r => rfl) rid rid db.requests]
    simp [hreq]

/-- State for C9's witness: one already-approved request and one pending
request. -/
def dbC9 : DB := {
  users := [hrU, empU]
  assets := [laptop]
  requests := [{ laptopReq with requestStatus := "approved" },
    { laptopReq with id := 5, assetId := 9 }]
  assignedAssets := []
  employeeAffiliations := []
  nextId := 10 }

/-- C9 witness: the general theorem applied at the concrete state `dbC9`,
once on the approved request (id 2) and once on the pending one (id 5). -/
theorem C9_witness :
    (approveRequest dbC9 "hr@corp.com" 2 6 = (dbC9, ⟨400, "Invalid request"⟩) ∧
      rejectRequest dbC9 "hr@corp.com" 2 6 = (dbC9, ⟨400, "Invalid request"⟩)) ∧
    ((rejectRequest dbC9 "hr@corp.com" 5 6).2 = ⟨200, "Request rejected"⟩ ∧
      (rejectRequest dbC9 "hr@corp.com" 5 6).1.assets = dbC9.assets) :=
  ⟨(C9_nonpending_rejected_behaviour dbC9 "hr@corp.com" 2 6
      { laptopReq with requestStatus := "approved" } (by decide) (by decide)).1
    (by decide),
  ⟨((C9_nonpending_rejected_behaviour dbC9 "hr@corp.com" 5 6
      { laptopReq with id := 5, assetId := 9 } (by decide) (by decide)).2
    (by decide)).1,
  ((C9_nonpending_rejected_behaviour dbC9 "hr@corp.com" 5 6
      { laptopReq with id := 5, assetId := 9 } (by decide) (by decide)).2
    (by decide)).2.1⟩⟩

/-- State for C7: a fresh HR with `currentEmployees = 0` and no affiliation
at all. -/
def dbC7 : DB := {
  users := [hrU]
  assets := []
  requests := []
  assignedAssets := []
  employeeAffiliations := []
  nextId := 10 }

/-- C7: refuted by the code.  `PATCH /employees/:email/remove` decrements
`currentEmployees` unconditionally, so removing an employee who has no
affiliation drives the counter of a fresh HR (counter 0) to `-1`, violating
the spec's `currentEmployees (int ≥ 0)`. -/
theorem C7_remove_goes_negative :
    (removeEmployee dbC7 "hr@corp.com" "ghost@mail.com").1.users.map
      (fun u => (u.email, u.currentEmployees)) = [("hr@corp.com", -1)] ∧
    (removeEmployee dbC7 "hr@corp.com" "ghost@mail.com").2 =
      ⟨200, "Employee removed from team"⟩ := by
  constructor <;> decide

/-- State for C3: the package limit is hit (packageLimit 1, already 1
employee) and every earlier approve check passes. -/
def dbC3 : DB := {
  users := [{ hrU with packageLimit := 1, currentEmployees := 1 }, empU]
  assets := [laptop]
  requests := [laptopReq]
  assignedAssets := []
  employeeAffiliations := []
  nextId := 10 }

/-- C3 counterexample: at `dbC3` the approve handler does fail on the
package limit, but reports it with HTTP status 403 (`res.status(403)` in
the handler), not 400 as the claim states. -/
theorem C3_counterexample :
    (approveRequest dbC3 "hr@corp.com" 2 5).2 =
      ⟨403, "Employee limit reached. Upgrade package."⟩ ∧
    ¬ (approveRequest dbC3 "hr@corp.com" 2 5).2.status = 400 := by
  constructor <;> decide

/-- C3 amended: for every pending request passing the availability and
duplicate-assignment checks whose HR user has a non-zero `packageLimit` and
`currentEmployees ≥ packageLimit`, the approve handler fails with the
limit-reached error, reported as HTTP status 403 (not 400), and performs no
writes. -/
theorem C3_amended_limit_reached_is_403 (db : DB) (caller : String)
    (rid : Nat) (now : Nat) (request : Request) (asset : Asset)
    (hhr : verifyHR db caller = true)
    (hreq : db.requests.find? (fun r => r.id == rid) = some request)
    (hpending : request.requestStatus = "pending")
    (hasset : db.assets.find? (fun a => a.id == request.assetId) = some asset)
    (havail : ¬ asset.availableQuantity < 1)
    (hdup : db.assignedAssets.find? (fun a =>
      a.assetId == request.assetId && a.employeeEmail == request.requesterEmail &&
      a.status == "assigned") = none)
    (hlimit : limitReached (findUser db request.hrEmail) = true) :
    approveRequest db caller rid now =
      (db, ⟨403, "Employee limit reached. Upgrade package."⟩) := by
  simp [approveRequest, hhr, hreq, hpending, hasset, havail, hdup, hlimit]

/-- C3 witness: the amended theorem applied at the concrete state `dbC3`. -/
theorem C3_witness :
    limitReached (findUser dbC3 "hr@corp.com") = true ∧
    approveRequest dbC3 "hr@corp.com" 2 5 =
      (dbC3, ⟨403, "Employee limit reached. Upgrade package."⟩) :=
  ⟨by decide,
    C3_amended_limit_reached_is_403 dbC3 "hr@corp.com" 2 5 laptopReq laptop
      (by decide) (by decide) (by decide) (by decide) (by decide) (by decide)
      (by decide)⟩

/-- State for C8: a pending duplicate request exists but the asset has no
availability left. -/
def dbC8 : DB := {
  users := [hrU, empU]
  assets := [{ laptop with availableQuantity := 0 }]
  requests := [laptopReq]
  assignedAssets := []
  employeeAffiliations := []
  nextId := 10 }

/-- C8 counterexample: at `dbC8` a pending request for (asset 1, employee)
exists, yet `POST /requests` fails with "Asset not available" (the
availability check runs before the duplicate check), not with the conflict
error the claim promises. -/
theorem C8_counterexample :
    (dbC8.requests.find? (fun r => r.assetId == 1 &&
      r.requesterEmail == "emp@mail.com" && r.requestStatus == "pending")).isSome
      = true ∧
    (submitRequest dbC8 "emp@mail.com" 1 "" 7).2 = ⟨400, "Asset not available"⟩ ∧
    ¬ (submitRequest dbC8 "emp@mail.com" 1 "" 7).2.message =
      "You already requested this asset" := by
  refine ⟨by decide, by decide, by decide⟩

/-- The `verifyEmployee` middleware passing means the caller's user document
exists with role `"employee"`. -/
theorem verifyEmployee_exists_user (db : DB) (email : String)
    (h : verifyEmployee db email = true) :
    ∃ u, findUser db email = some u ∧ u.role = "employee" := by
  unfold verifyEmployee at h
  cases hu : findUser db email with
  | none => rw [hu] at h; simp at h
  | some u =>
    rw [hu] at h
    simp only [beq_iff_eq] at h
    exact ⟨u, rfl, h⟩

/-- C8 amended: when the caller passes `verifyEmployee` and the asset exists
with `availableQuantity ≥ 1`, a pending duplicate for (assetId, caller)
makes `POST /requests` fail with the conflict error and insert nothing,
and absence of a duplicate makes it insert exactly one new pending request
for (assetId, caller); if the asset is absent or unavailable the handler
fails before the duplicate check (404 / 400 Unavailable), still inserting
nothing. -/
theorem C8_amended_conflict_needs_available_asset (db : DB) (caller : String)
    (assetId : Nat) (note : String) (now : Nat) (asset : Asset)
    (hemp : verifyEmployee db caller = true)
    (hasset : db.assets.find? (fun a => a.id == assetId) = some asset)
    (havail : ¬ asset.availableQuantity < 1) :
    ((db.requests.find? (fun r => r.assetId == asset.id &&
        r.requesterEmail == caller && r.requestStatus == "pending")).isSome = true →
      submitRequest db caller assetId note now =
        (db, ⟨400, "You already requested this asset"⟩)) ∧
    (db.requests.find? (fun r => r.assetId == asset.id &&
        r.requesterEmail == caller && r.requestStatus == "pending") = none →
      (submitRequest db caller assetId note now).2 =
        ⟨200, "Request created successfully"⟩ ∧
      ∃ newReq : Request,
        (submitRequest db caller assetId note now).1.requests =
          db.requests ++ [newReq] ∧
        newReq.requestStatus = "pending" ∧ newReq.assetId = asset.id ∧
        newReq.requesterEmail = caller) := by
  constructor
  · intro hdup
    simp [submitRequest, hemp, hasset, havail, hdup]
  · intro hdup
    obtain ⟨employee, hfind, _⟩ := verifyEmployee_exists_user db caller hemp
    constructor
    · simp [submitRequest, hemp, hasset, havail, hdup, hfind]
    · have hreqs : (submitRequest db caller assetId note now).1.requests =
          db.requests ++ [{ id := db.nextId, assetId := asset.id, assetName := asset.name, assetType := asset.type, assetImage := asset.productImage, requesterEmail := caller, requesterName := employee.name, hrEmail := asset.hrEmail, companyName := if asset.companyName = "" then "N/A" else asset.companyName, requestDate := now, requestStatus := "pending", note := note, approvalDate := none, processedBy := none }] := by
        simp [submitRequest, hemp, hasset, havail, hdup, hfind]
      exact ⟨_, hreqs, rfl, rfl, rfl⟩

/-- C8 witness: the amended theorem applied at `dbC9` (whose pending request
id 5 targets another asset, so no duplicate exists for asset 1). -/
theorem C8_witness :
    (submitRequest dbC9 "emp@mail.com" 1 "" 7).2 =
      ⟨200, "Request created successfully"⟩ :=
  ((C8_amended_conflict_needs_available_asset dbC9 "emp@mail.com" 1 "" 7 laptop
      (by decide) (by decide) (by decide)).2 (by decide)).1

/-- State for C5: the assignment (id 3) originated from the approved request
(id 5), but an older rejected request (id 2) for the same (asset, employee)
sits earlier in the collection. -/
def dbC5 : DB := {
  users := [hrU, empU]
  assets := [{ laptop with availableQuantity := 1 }]
  requests := [{ laptopReq with requestStatus := "rejected" },
    { laptopReq with id := 5, requestStatus := "approved", approvalDate := some 1, processedBy := some "hr@corp.com" }]
  assignedAssets := [laptopAssigned]
  employeeAffiliations := [empAffiliation]
  nextId := 10 }

/-- C5 counterexample: at `dbC5` the return succeeds but marks the older
rejected request (id 2) `returned` (the handler's `updateOne` matches on
(assetId, requesterEmail) only, in collection order), while the approved
request (id 5) that originated the assignment keeps status `approved` —
refuting the claim that the originating request gets status `returned`. -/
theorem C5_counterexample :
    (returnAsset dbC5 "emp@mail.com" 3 9).2 = ⟨200, "Asset returned successfully"⟩ ∧
    (returnAsset dbC5 "emp@mail.com" 3 9).1.requests.map
      (fun r => (r.id, r.requestStatus)) = [(2, "returned"), (5, "approved")] := by
  constructor <;> decide

/-- C5 amended: a return of an assignment not owned by the caller or not in
status `assigned` fails with 400 "Invalid return request" and changes
nothing; otherwise the assignment is marked `returned` with the return
date, the asset's `availableQuantity` is incremented by 1, and the *first*
request in the collection matching (assetId, requesterEmail) — regardless
of its status, hence the originating approved request only when no earlier
match exists — gets status `returned`. -/
theorem C5_amended_return_updates_first_matching_request (db : DB)
    (caller : String) (aid : Nat) (now : Nat)
    (hemp : verifyEmployee db caller = true) :
    (db.assignedAssets.find? (fun a => a.id == aid && a.employeeEmail == caller)
        = none →
      returnAsset db caller aid now = (db, ⟨400, "Invalid return request"⟩)) ∧
    (∀ d, db.assignedAssets.find?
        (fun a => a.id == aid && a.employeeEmail == caller) = some d →
      (d.status ≠ "assigned" →
        returnAsset db caller aid now = (db, ⟨400, "Invalid return request"⟩)) ∧
      (d.status = "assigned" →
        (returnAsset db caller aid now).2 = ⟨200, "Asset returned successfully"⟩ ∧
        (∃ x, (returnAsset db caller aid now).1.assignedAssets.find?
            (fun a => a.id == aid) = some x ∧
          x.status = "returned" ∧ x.returnDate = some now) ∧
        ((returnAsset db caller aid now).1.assets.find?
            (fun a => a.id == d.assetId)).map (fun a => a.availableQuantity) =
          (db.assets.find? (fun a => a.id == d.assetId)).map
            (fun a => a.availableQuantity + 1) ∧
        (returnAsset db caller aid now).1.requests =
          updateFirst (fun r => r.assetId == d.assetId && r.requesterEmail == caller)
            (fun r => { r with requestStatus := "returned", approvalDate := some now })
            db.requests)) := by
  constructor
  · intro hnone
    simp [returnAsset, hemp, hnone]
  · intro d hd
    constructor
    · intro hst
      simp [returnAsset, hemp, hd, hst]
    · intro hst
      refine ⟨by simp [returnAsset, hemp, hd, hst], ?_, ?_,
        by simp [returnAsset, hemp, hd, hst]⟩
      · have hassigned : (returnAsset db caller aid now).1.assignedAssets =
            updateFirst (fun a => a.id == aid)
              (fun a => { a with status := "returned", returnDate := some now })
              db.assignedAssets := by
          simp [returnAsset, hemp, hd, hst]
        rw [hassigned, find?_key_updateFirst AssignedAsset.id
          (fun a => { a with status := "returned", returnDate := some now })
          (fun a => rfl) aid aid db.assignedAssets, if_pos rfl]
        have hmem := List.mem_of_find?_eq_some hd
        have hpd := List.find?_some hd
        have hid : (d.id == aid) = true := by
          simp only [Bool.and_eq_true] at hpd
          exact hpd.1
        have hsome : (db.assignedAssets.find? (fun a => a.id == aid)).isSome :=
          List.find?_isSome.mpr ⟨d, hmem, hid⟩
        obtain ⟨x0, hx0⟩ := Option.isSome_iff_exists.mp hsome
        rw [hx0]
        exact ⟨_, rfl, rfl, rfl⟩
      · have hassets : (returnAsset db caller aid now).1.assets =
            updateFirst (fun a => a.id == d.assetId)
              (fun a => { a with availableQuantity := a.availableQuantity + 1 })
              db.assets := by
          simp [returnAsset, hemp, hd, hst]
        rw [hassets, find?_key_updateFirst Asset.id
          (fun a => { a with availableQuantity := a.availableQuantity + 1 })
          (fun a => rfl) d.assetId d.assetId db.assets, if_pos rfl]
        cases db.assets.find? (fun a => a.id == d.assetId) <;> rfl

/-- The approve handler's success path when an active affiliation for
(requester, request.hrEmail) already exists: three collections are written,
no user or affiliation changes. -/
theorem approveRequest_success_affiliated (db : DB) (caller : String)
    (rid : Nat) (now : Nat) (request : Request) (asset : Asset)
    (hhr : verifyHR db caller = true)
    (hreq : db.requests.find? (fun r => r.id == rid) = some request)
    (hpending : request.requestStatus = "pending")
    (hasset : db.assets.find? (fun a => a.id == request.assetId) = some asset)
    (havail : ¬ asset.availableQuantity < 1)
    (hdup : db.assignedAssets.find? (fun a =>
      a.assetId == request.assetId && a.employeeEmail == request.requesterEmail &&
      a.status == "assigned") = none)
    (hlimit : limitReached (findUser db request.hrEmail) = false)
    (haffil : (db.employeeAffiliations.find? (fun a =>
      a.employeeEmail == request.requesterEmail && a.hrEmail == request.hrEmail &&
      a.status == "active")).isSome = true) :
    approveRequest db caller rid now =
      ({ db with
        assets := updateFirst (fun a => a.id == asset.id)
          (fun a => { a with availableQuantity := a.availableQuantity - 1 })
          db.assets
        requests := updateFirst (fun r => r.id == rid)
          (fun r => { r with requestStatus := "approved", approvalDate := some now, processedBy := some caller })
          db.requests
        assignedAssets := db.assignedAssets ++
          [{ id := db.nextId, assetId := request.assetId, assetName := request.assetName, assetType := request.assetType, employeeEmail := request.requesterEmail, employeeName := request.requesterName, hrEmail := request.hrEmail, companyName := request.companyName, assignmentDate := now, status := "assigned", returnDate := none }]
        nextId := db.nextId + 1 },
        ⟨200, "Request approved successfully"⟩) := by
  simp [approveRequest, hhr, hreq, hpending, hasset, havail, hdup, hlimit, haffil]

/-- The approve handler's success path when no active affiliation for
(requester, request.hrEmail) exists: additionally a new affiliation is
inserted, the requester's `companyAffiliations` gains an entry, and the
user at `request.hrEmail` has `currentEmployees` incremented. -/
theorem approveRequest_success_unaffiliated (db : DB) (caller : String)
    (rid : Nat) (now : Nat) (request : Request) (asset : Asset)
    (hhr : verifyHR db caller = true)
    (hreq : db.requests.find? (fun r => r.id == rid) = some request)
    (hpending : request.requestStatus = "pending")
    (hasset : db.assets.find? (fun a => a.id == request.assetId) = some asset)
    (havail : ¬ asset.availableQuantity < 1)
    (hdup : db.assignedAssets.find? (fun a =>
      a.assetId == request.assetId && a.employeeEmail == request.requesterEmail &&
      a.status == "assigned") = none)
    (hlimit : limitReached (findUser db request.hrEmail) = false)
    (haffil : db.employeeAffiliations.find? (fun a =>
      a.employeeEmail == request.requesterEmail && a.hrEmail == request.hrEmail &&
      a.status == "active") = none) :
    approveRequest db caller rid now =
      ({ db with
        users := updateFirst (fun u => u.email == request.hrEmail)
          (fun u => { u with currentEmployees := u.currentEmployees + 1 })
          (updateFirst (fun u => u.email == request.requesterEmail)
            (fun u => { u with companyAffiliations :=
              if { companyName := request.companyName, approvedBy := request.hrEmail, approvedAt := now } ∈ u.companyAffiliations then u.companyAffiliations
              else u.companyAffiliations ++ [{ companyName := request.companyName, approvedBy := request.hrEmail, approvedAt := now }] })
            db.users)
        assets := updateFirst (fun a => a.id == asset.id)
          (fun a => { a with availableQuantity := a.availableQuantity - 1 })
          db.assets
        requests := updateFirst (fun r => r.id == rid)
          (fun r => { r with requestStatus := "approved", approvalDate := some now, processedBy := some caller })
          db.requests
        assignedAssets := db.assignedAssets ++
          [{ id := db.nextId, assetId := request.assetId, assetName := request.assetName, assetType := request.assetType, employeeEmail := request.requesterEmail, employeeName := request.requesterName, hrEmail := request.hrEmail, companyName := request.companyName, assignmentDate := now, status := "assigned", returnDate := none }]
        employeeAffiliations := db.employeeAffiliations ++
          [{ id := db.nextId + 1, employeeEmail := request.requesterEmail, employeeName := request.requesterName, hrEmail := request.hrEmail, companyName := request.companyName, affiliationDate := now, status := "active" }]
        nextId := db.nextId + 2 },
        ⟨200, "Request approved successfully"⟩) := by
  simp [approveRequest, hhr, hreq, hpending, hasset, havail, hdup, hlimit, haffil]

/-- C5 witness: the amended theorem applied at the concrete state `dbC5`. -/
theorem C5_witness :
    (returnAsset dbC5 "emp@mail.com" 3 9).2 = ⟨200, "Asset returned successfully"⟩ ∧
    (∃ x, (returnAsset dbC5 "emp@mail.com" 3 9).1.assignedAssets.find?
        (fun a => a.id == 3) = some x ∧
      x.status = "returned" ∧ x.returnDate = some 9) :=
  let h := ((C5_amended_return_updates_first_matching_request dbC5 "emp@mail.com"
    3 9 (by decide)).2 laptopAssigned (by decide)).2 (by decide)
  ⟨h.1, h.2.1⟩

/-- On the unaffiliated success path, the approve handler bumps
`currentEmployees` of the user at `request.hrEmail` (and of nobody else) by
exactly 1 — the `$addToSet` on the requester's profile never touches
`currentEmployees`, even when requester and HR share one email. -/
theorem currentEmployees_after_unaffiliated_success (db : DB) (caller : String)
    (rid : Nat) (now : Nat) (request : Request) (asset : Asset)
    (hhr : verifyHR db caller = true)
    (hreq : db.requests.find? (fun r => r.id == rid) = some request)
    (hpending : request.requestStatus = "pending")
    (hasset : db.assets.find? (fun a => a.id == request.assetId) = some asset)
    (havail : ¬ asset.availableQuantity < 1)
    (hdup : db.assignedAssets.find? (fun a =>
      a.assetId == request.assetId && a.employeeEmail == request.requesterEmail &&
      a.status == "assigned") = none)
    (hlimit : limitReached (findUser db request.hrEmail) = false)
    (haffil : db.employeeAffiliations.find? (fun a =>
      a.employeeEmail == request.requesterEmail && a.hrEmail == request.hrEmail &&
      a.status == "active") = none) :
    (findUser (approveRequest db caller rid now).1 request.hrEmail).map
      (fun u => u.currentEmployees) =
      (findUser db request.hrEmail).map (fun u => u.currentEmployees + 1) := by
  rw [approveRequest_success_unaffiliated db caller rid now request asset
    hhr hreq hpending hasset havail hdup hlimit haffil]
  unfold findUser
  rw [show (({ db with
      users := updateFirst (fun u => u.email == request.hrEmail)
        (fun u => { u with currentEmployees := u.currentEmployees + 1 })
        (updateFirst (fun u => u.email == request.requesterEmail)
          (fun u => { u with companyAffiliations :=
            if { companyName := request.companyName, approvedBy := request.hrEmail, approvedAt := now } ∈ u.companyAffiliations then u.companyAffiliations
            else u.companyAffiliations ++ [{ companyName := request.companyName, approvedBy := request.hrEmail, approvedAt := now }] })
          db.users)
      assets := updateFirst (fun a => a.id == asset.id)
        (fun a => { a with availableQuantity := a.availableQuantity - 1 })
        db.assets
      requests := updateFirst (fun r => r.id == rid)
        (fun r => { r with requestStatus := "approved", approvalDate := some now, processedBy := some caller })
        db.requests
      assignedAssets := db.assignedAssets ++
        [{ id := db.nextId, assetId := request.assetId, assetName := request.assetName, assetType := request.assetType, employeeEmail := request.requesterEmail, employeeName := request.requesterName, hrEmail := request.hrEmail, companyName := request.companyName, assignmentDate := now, status := "assigned", returnDate := none }]
      employeeAffiliations := db.employeeAffiliations ++
        [{ id := db.nextId + 1, employeeEmail := request.requesterEmail, employeeName := request.requesterName, hrEmail := request.hrEmail, companyName := request.companyName, affiliationDate := now, status := "active" }]
      nextId := db.nextId + 2 } : DB).users)
    = updateFirst (fun u => u.email == request.hrEmail)
        (fun u => { u with currentEmployees := u.currentEmployees + 1 })
        (updateFirst (fun u => u.email == request.requesterEmail)
          (fun u => { u with companyAffiliations :=
            if { companyName := request.companyName, approvedBy := request.hrEmail, approvedAt := now } ∈ u.companyAffiliations then u.companyAffiliations
            else u.companyAffiliations ++ [{ companyName := request.companyName, approvedBy := request.hrEmail, approvedAt := now }] })
          db.users) from rfl]
  rw [find?_key_updateFirst User.email
    (fun u => { u with currentEmployees := u.currentEmployees + 1 })
    (fun u => rfl) request.hrEmail request.hrEmail, if_pos rfl]
  rw [find?_key_updateFirst User.email
    (fun u => { u with companyAffiliations :=
      if { companyName := request.companyName, approvedBy := request.hrEmail, approvedAt := now } ∈ u.companyAffiliations then u.companyAffiliations
      else u.companyAffiliations ++ [{ companyName := request.companyName, approvedBy := request.hrEmail, approvedAt := now }] })
    (fun u => rfl) request.requesterEmail request.hrEmail]
  by_cases heq : request.requesterEmail = request.hrEmail
  · rw [if_pos heq]
    cases db.users.find? (fun u => u.email == request.hrEmail) <;> rfl
  · rw [if_neg heq]
    cases db.users.find? (fun u => u.email == request.hrEmail) <;> rfl

/-- C4: on a successful approve, the `currentEmployees` of the user at
`request.hrEmail` is incremented by 1 exactly when no active affiliation for
(requesterEmail, hrEmail) existed before the call, and unchanged when one
did. -/
theorem C4_increment_iff_first_affiliation (db : DB) (caller : String)
    (rid : Nat) (now : Nat) (request : Request) (asset : Asset) (hr : User)
    (hhr : verifyHR db caller = true)
    (hreq : db.requests.find? (fun r => r.id == rid) = some request)
    (hpending : request.requestStatus = "pending")
    (hasset : db.assets.find? (fun a => a.id == request.assetId) = some asset)
    (havail : ¬ asset.availableQuantity < 1)
    (hdup : db.assignedAssets.find? (fun a =>
      a.assetId == request.assetId && a.employeeEmail == request.requesterEmail &&
      a.status == "assigned") = none)
    (hhrfound : findUser db request.hrEmail = some hr)
    (hlimit : limitReached (findUser db request.hrEmail) = false) :
    (approveRequest db caller rid now).2 = ⟨200, "Request approved successfully"⟩ ∧
    (findUser (approveRequest db caller rid now).1 request.hrEmail).map
      (fun u => u.currentEmployees) =
      some (hr.currentEmployees +
        if (db.employeeAffiliations.find? (fun a =>
          a.employeeEmail == request.requesterEmail && a.hrEmail == request.hrEmail &&
          a.status == "active")).isSome then 0 else 1) := by
  by_cases haffil : (db.employeeAffiliations.find? (fun a =>
      a.employeeEmail == request.requesterEmail && a.hrEmail == request.hrEmail &&
      a.status == "active")).isSome = true
  · rw [approveRequest_success_affiliated db caller rid now request asset
      hhr hreq hpending hasset havail hdup hlimit haffil]
    refine ⟨rfl, ?_⟩
    simp only [haffil, if_true]
    unfold findUser at hhrfound ⊢
    simp [hhrfound]
  · have haffil' : db.employeeAffiliations.find? (fun a =>
        a.employeeEmail == request.requesterEmail && a.hrEmail == request.hrEmail &&
        a.status == "active") = none := by
      rcases h : db.employeeAffiliations.find? (fun a =>
        a.employeeEmail == request.requesterEmail && a.hrEmail == request.hrEmail &&
        a.status == "active") with _ | v
      · exact h
      · rw [h] at haffil; simp at haffil
    constructor
    · rw [approveRequest_success_unaffiliated db caller rid now request asset
        hhr hreq hpending hasset havail hdup hlimit haffil']
    · rw [currentEmployees_after_unaffiliated_success db caller rid now request asset
        hhr hreq hpending hasset havail hdup hlimit haffil', hhrfound]
      simp [haffil]

/-- State for C4's witness: a fresh approvable pending request, no
affiliation yet. -/
def dbApprove0 : DB := {
  users := [hrU, empU]
  assets := [laptop]
  requests := [laptopReq]
  assignedAssets := []
  employeeAffiliations := []
  nextId := 10 }

/-- C4 witness: the theorem applied at `dbApprove0`, where no affiliation
exists, so the HR counter goes from 0 to 0 + 1. -/
theorem C4_witness :
    (approveRequest dbApprove0 "hr@corp.com" 2 5).2 =
      ⟨200, "Request approved successfully"⟩ ∧
    (findUser (approveRequest dbApprove0 "hr@corp.com" 2 5).1
        laptopReq.hrEmail).map (fun u => u.currentEmployees) =
      some (hrU.currentEmployees +
        if (dbApprove0.employeeAffiliations.find? (fun a =>
          a.employeeEmail == laptopReq.requesterEmail &&
          a.hrEmail == laptopReq.hrEmail && a.status == "active")).isSome
        then 0 else 1) :=
  C4_increment_iff_first_affiliation dbApprove0 "hr@corp.com" 2 5 laptopReq
    laptop hrU (by decide) (by decide) (by decide) (by decide) (by decide)
    (by decide) (by decide) (by decide)

/-- C10: the approve handler checks only that the caller has role `hr`; a
pending request passing the availability, duplicate-assignment and
package-limit checks is approved even by an HR whose email differs from
`request.hrEmail`.  The new assignment and the `currentEmployees` increment
use `request.hrEmail`, while `processedBy` records the caller. -/
theorem C10_cross_tenant_approve (db : DB) (caller : String) (rid : Nat)
    (now : Nat) (request : Request) (asset : Asset)
    (hhr : verifyHR db caller = true)
    (hreq : db.requests.find? (fun r => r.id == rid) = some request)
    (hpending : request.requestStatus = "pending")
    (hasset : db.assets.find? (fun a => a.id == request.assetId) = some asset)
    (havail : ¬ asset.availableQuantity < 1)
    (hdup : db.assignedAssets.find? (fun a =>
      a.assetId == request.assetId && a.employeeEmail == request.requesterEmail &&
      a.status == "assigned") = none)
    (hlimit : limitReached (findUser db request.hrEmail) = false) :
    (approveRequest db caller rid now).2 = ⟨200, "Request approved successfully"⟩ ∧
    (∃ d : AssignedAsset,
      (approveRequest db caller rid now).1.assignedAssets =
        db.assignedAssets ++ [d] ∧
      d.hrEmail = request.hrEmail ∧ d.employeeEmail = request.requesterEmail ∧
      d.status = "assigned") ∧
    ((approveRequest db caller rid now).1.requests.find?
        (fun r => r.id == rid)).map (fun r => r.processedBy) =
      some (some caller) ∧
    (db.employeeAffiliations.find? (fun a =>
        a.employeeEmail == request.requesterEmail && a.hrEmail == request.hrEmail &&
        a.status == "active") = none →
      (findUser (approveRequest db caller rid now).1 request.hrEmail).map
        (fun u => u.currentEmployees) =
        (findUser db request.hrEmail).map (fun u => u.currentEmployees + 1)) := by
  by_cases haffil : (db.employeeAffiliations.find? (fun a =>
      a.employeeEmail == request.requesterEmail && a.hrEmail == request.hrEmail &&
      a.status == "active")).isSome = true
  · have heq := approveRequest_success_affiliated db caller rid now request asset
      hhr hreq hpending hasset havail hdup hlimit haffil
    refine ⟨by rw [heq],
      ⟨{ id := db.nextId, assetId := request.assetId, assetName := request.assetName, assetType := request.assetType, employeeEmail := request.requesterEmail, employeeName := request.requesterName, hrEmail := request.hrEmail, companyName := request.companyName, assignmentDate := now, status := "assigned", returnDate := none },
        by rw [heq], rfl, rfl, rfl⟩, ?_, ?_⟩
    · have hreqs : (approveRequest db caller rid now).1.requests =
          updateFirst (fun r => r.id == rid)
            (fun r => { r with requestStatus := "approved", approvalDate := some now, processedBy := some caller })
            db.requests := by rw [heq]
      rw [hreqs, find?_key_updateFirst Request.id
        (fun r => { r with requestStatus := "approved", approvalDate := some now, processedBy := some caller })
        (fun r => rfl) rid rid, if_pos rfl, hreq]
      rfl
    · intro hnone
      rw [hnone] at haffil
      simp at haffil
  · have haffil' : db.employeeAffiliations.find? (fun a =>
        a.employeeEmail == request.requesterEmail && a.hrEmail == request.hrEmail &&
        a.status == "active") = none := by
      rcases h : db.employeeAffiliations.find? (fun a =>
        a.employeeEmail == request.requesterEmail && a.hrEmail == request.hrEmail &&
        a.status == "active") with _ | v
      · exact h
      · rw [h] at haffil; simp at haffil
    have heq := approveRequest_success_unaffiliated db caller rid now request asset
      hhr hreq hpending hasset havail hdup hlimit haffil'
    refine ⟨by rw [heq],
      ⟨{ id := db.nextId, assetId := request.assetId, assetName := request.assetName, assetType := request.assetType, employeeEmail := request.requesterEmail, employeeName := request.requesterName, hrEmail := request.hrEmail, companyName := request.companyName, assignmentDate := now, status := "assigned", returnDate := none },
        by rw [heq], rfl, rfl, rfl⟩, ?_, ?_⟩
    · have hreqs : (approveRequest db caller rid now).1.requests =
          updateFirst (fun r => r.id == rid)
            (fun r => { r with requestStatus := "approved", approvalDate := some now, processedBy := some caller })
            db.requests := by rw [heq]
      rw [hreqs, find?_key_updateFirst Request.id
        (fun r => { r with requestStatus := "approved", approvalDate := some now, processedBy := some caller })
        (fun r => rfl) rid rid, if_pos rfl, hreq]
      rfl
    · intro _
      exact currentEmployees_after_unaffiliated_success db caller rid now request
        asset hhr hreq hpending hasset havail hdup hlimit haffil'

/-- State for C10's witness: a second HR (`other@corp.com`, company Other)
approves the pending request whose `hrEmail` is `hr@corp.com`. -/
def dbC10 : DB := {
  users := [hrU, empU, { hrU with email := "other@corp.com", companyName := "Other" }]
  assets := [laptop]
  requests := [laptopReq]
  assignedAssets := []
  employeeAffiliations := []
  nextId := 10 }

/-- C10 witness: the theorem applied at `dbC10` with a caller
(`other@corp.com`) different from the request's `hrEmail`
(`hr@corp.com`). -/
theorem C10_witness :
    (approveRequest dbC10 "other@corp.com" 2 5).2 =
      ⟨200, "Request approved successfully"⟩ ∧
    ((approveRequest dbC10 "other@corp.com" 2 5).1.requests.find?
        (fun r => r.id == 2)).map (fun r => r.processedBy) =
      some (some "other@corp.com") ∧
    (findUser (approveRequest dbC10 "other@corp.com" 2 5).1
        laptopReq.hrEmail).map (fun u => u.currentEmployees) =
      (findUser dbC10 laptopReq.hrEmail).map (fun u => u.currentEmployees + 1) :=
  let h := C10_cross_tenant_approve dbC10 "other@corp.com" 2 5 laptopReq laptop
    (by decide) (by decide) (by decide) (by decide) (by decide) (by decide)
    (by decide)
  ⟨h.1, h.2.2.1, h.2.2.2 (by decide)⟩

/-! ## Per-operation effect lemmas

Coarse case analyses of each handler, used by the sequence invariants
(C1, C6): which collections a call can touch and how. -/

/-- `POST /requests` never touches users, assets, assigned assets or
affiliations, and never lowers `nextId`. -/
theorem submitRequest_effects (db : DB) (c : String) (aid : Nat) (n : String)
    (t : Nat) :
    (submitRequest db c aid n t).1.assets = db.assets ∧
    (submitRequest db c aid n t).1.assignedAssets = db.assignedAssets ∧
    (submitRequest db c aid n t).1.employeeAffiliations = db.employeeAffiliations ∧
    db.nextId ≤ (submitRequest db c aid n t).1.nextId := by
  unfold submitRequest
  repeat' split
  all_goals simp

/-- `PATCH /requests/:id/reject` touches only the requests collection. -/
theorem rejectRequest_effects (db : DB) (c : String) (rid : Nat) (t : Nat) :
    (rejectRequest db c rid t).1.assets = db.assets ∧
    (rejectRequest db c rid t).1.assignedAssets = db.assignedAssets ∧
    (rejectRequest db c rid t).1.employeeAffiliations = db.employeeAffiliations ∧
    (rejectRequest db c rid t).1.nextId = db.nextId := by
  unfold rejectRequest
  repeat' split
  all_goals simp

/-- `PATCH /employees/:email/remove` leaves assets, assigned assets and
`nextId` alone; the affiliation collection is either untouched or has the
first (employee, caller) document set `inactive`. -/
theorem removeEmployee_effects (db : DB) (c : String) (e : String) :
    (removeEmployee db c e).1.assets = db.assets ∧
    (removeEmployee db c e).1.assignedAssets = db.assignedAssets ∧
    (removeEmployee db c e).1.nextId = db.nextId ∧
    ((removeEmployee db c e).1.employeeAffiliations = db.employeeAffiliations ∨
      (removeEmployee db c e).1.employeeAffiliations =
        updateFirst (fun a => a.employeeEmail == e && a.hrEmail == c)
          (fun a => { a with status := "inactive" }) db.employeeAffiliations) := by
  unfold removeEmployee
  split
  · exact ⟨rfl, rfl, rfl, Or.inl rfl⟩
  · exact ⟨rfl, rfl, rfl, Or.inr rfl⟩

/-- `PATCH /assigned-assets/:id/return` never touches affiliations or
`nextId`; it either changes nothing in assets/assigned assets, or flips an
`assigned` document owned by the caller to `returned` and increments the
matching asset. -/
theorem returnAsset_effects (db : DB) (c : String) (aid : Nat) (t : Nat) :
    (returnAsset db c aid t).1.employeeAffiliations = db.employeeAffiliations ∧
    (returnAsset db c aid t).1.nextId = db.nextId ∧
    (((returnAsset db c aid t).1.assets = db.assets ∧
      (returnAsset db c aid t).1.assignedAssets = db.assignedAssets) ∨
      ∃ d, db.assignedAssets.find?
          (fun a => a.id == aid && a.employeeEmail == c) = some d ∧
        d.status = "assigned" ∧
        (returnAsset db c aid t).1.assets =
          updateFirst (fun a => a.id == d.assetId)
            (fun a => { a with availableQuantity := a.availableQuantity + 1 })
            db.assets ∧
        (returnAsset db c aid t).1.assignedAssets =
          updateFirst (fun a => a.id == aid)
            (fun a => { a with status := "returned", returnDate := some t })
            db.assignedAssets) := by
  unfold returnAsset
  split
  · exact ⟨rfl, rfl, Or.inl ⟨rfl, rfl⟩⟩
  · split
    · exact ⟨rfl, rfl, Or.inl ⟨rfl, rfl⟩⟩
    · rename_i d heq
      split
      · exact ⟨rfl, rfl, Or.inl ⟨rfl, rfl⟩⟩
      · rename_i hst
        refine ⟨rfl, rfl, Or.inr ⟨d, heq, ?_, rfl, rfl⟩⟩
        by_contra h
        exact hst h

/-- The approve handler either leaves assets, assigned assets and `nextId`
alone, or (success) decrements the found available asset, appends one fresh
`assigned` document pointing at it, and bumps `nextId`. -/
theorem approveRequest_inventory_cases (db : DB) (c : String) (rid : Nat)
    (t : Nat) :
    ((approveRequest db c rid t).1.assets = db.assets ∧
      (approveRequest db c rid t).1.assignedAssets = db.assignedAssets ∧
      (approveRequest db c rid t).1.nextId = db.nextId) ∨
    ∃ (request : Request) (asset : Asset),
      db.assets.find? (fun a => a.id == request.assetId) = some asset ∧
      ¬ asset.availableQuantity < 1 ∧
      (approveRequest db c rid t).1.assets =
        updateFirst (fun a => a.id == asset.id)
          (fun a => { a with availableQuantity := a.availableQuantity - 1 })
          db.assets ∧
      (approveRequest db c rid t).1.assignedAssets = db.assignedAssets ++
        [{ id := db.nextId, assetId := request.assetId, assetName := request.assetName, assetType := request.assetType, employeeEmail := request.requesterEmail, employeeName := request.requesterName, hrEmail := request.hrEmail, companyName := request.companyName, assignmentDate := t, status := "assigned", returnDate := none }] ∧
      db.nextId < (approveRequest db c rid t).1.nextId := by
  unfold approveRequest
  split
  · exact Or.inl ⟨rfl, rfl, rfl⟩
  · split
    · exact Or.inl ⟨rfl, rfl, rfl⟩
    · rename_i request heq
      split
      · exact Or.inl ⟨rfl, rfl, rfl⟩
      · split
        · exact Or.inl ⟨rfl, rfl, rfl⟩
        · rename_i asset hasset
          split
          · exact Or.inl ⟨rfl, rfl, rfl⟩
          · rename_i havail
            split
            · exact Or.inl ⟨rfl, rfl, rfl⟩
            · split
              · exact Or.inl ⟨rfl, rfl, rfl⟩
              · split
                · exact Or.inr ⟨request, asset, hasset, havail, rfl, rfl,
                    by simp⟩
                · exact Or.inr ⟨request, asset, hasset, havail, rfl, rfl,
                    by simp⟩

/-- The approve handler either leaves the affiliation collection alone, or
appends one fresh `active` affiliation for a pair that had no active
affiliation before the call. -/
theorem approveRequest_affiliation_cases (db : DB) (c : String) (rid : Nat)
    (t : Nat) :
    (approveRequest db c rid t).1.employeeAffiliations = db.employeeAffiliations ∨
    ∃ request : Request,
      db.employeeAffiliations.find? (fun a =>
        a.employeeEmail == request.requesterEmail && a.hrEmail == request.hrEmail &&
        a.status == "active") = none ∧
      (approveRequest db c rid t).1.employeeAffiliations =
        db.employeeAffiliations ++
        [{ id := db.nextId + 1, employeeEmail := request.requesterEmail, employeeName := request.requesterName, hrEmail := request.hrEmail, companyName := request.companyName, affiliationDate := t, status := "active" }] := by
  unfold approveRequest
  split
  · exact Or.inl rfl
  · split
    · exact Or.inl rfl
    · rename_i request heq
      split
      · exact Or.inl rfl
      · split
        · exact Or.inl rfl
        · split
          · exact Or.inl rfl
          · split
            · exact Or.inl rfl
            · split
              · exact Or.inl rfl
              · split
                · exact Or.inl rfl
                · rename_i hnotsome
                  refine Or.inr ⟨request, ?_, rfl⟩
                  rcases h : db.employeeAffiliations.find? (fun a =>
                    a.employeeEmail == request.requesterEmail &&
                    a.hrEmail == request.hrEmail && a.status == "active")
                    with _ | v
                  · exact h
                  · rw [h] at hnotsome
                    simp at hnotsome

/-- `updateOne` preserves `Pairwise R` whenever rewriting either side of a
related pair keeps it related. -/
theorem pairwise_updateFirst {R : α → α → Prop} (p : α → Bool) (f : α → α)
    (l : List α) (h : l.Pairwise R)
    (hfl : ∀ a b, R a b → R (f a) b) (hfr : ∀ a b, R a b → R a (f b)) :
    (updateFirst p f l).Pairwise R := by
  induction l with
  | nil => exact h
  | cons x xs ih =>
    rw [updateFirst_cons]
    rcases List.pairwise_cons.mp h with ⟨hx, hxs⟩
    by_cases hp : p x = true
    · rw [if_pos hp]
      exact List.pairwise_cons.mpr ⟨fun b hb => hfl x b (hx b hb), hxs⟩
    · rw [if_neg hp]
      refine List.pairwise_cons.mpr ⟨?_, ih hxs⟩
      intro b hb
      rcases mem_updateFirst hb with h' | ⟨y, hy, _, hby⟩
      · exact hx b h'
      · exact hby ▸ hfr x y (hx y hy)

/-- At most one `active` affiliation document exists for any
(employeeEmail, hrEmail) pair. -/
def AtMostOneActivePerPair (l : List EmployeeAffiliation) : Prop :=
  l.Pairwise (fun a b => a.employeeEmail = b.employeeEmail → a.hrEmail = b.hrEmail →
    a.status = "active" → b.status = "active" → False)

/-- Every single handler call preserves `AtMostOneActivePerPair`. -/
theorem atMostOneActive_applyOp (db : DB) (op : Op)
    (h : AtMostOneActivePerPair db.employeeAffiliations) :
    AtMostOneActivePerPair (applyOp db op).employeeAffiliations := by
  cases op with
  | approve caller rid now =>
    show AtMostOneActivePerPair (approveRequest db caller rid now).1.employeeAffiliations
    rcases approveRequest_affiliation_cases db caller rid now with heq | ⟨request, hnone, heq⟩
    · rw [heq]; exact h
    · rw [heq]
      refine List.pairwise_append.mpr ⟨h, List.pairwise_cons.mpr ⟨by simp, List.Pairwise.nil⟩, ?_⟩
      intro a ha b hb he hh hact _
      rcases List.mem_singleton.mp hb with rfl
      have hpa := (List.find?_eq_none.mp hnone) a ha
      apply hpa
      simp only [Bool.and_eq_true, beq_iff_eq]
      exact ⟨⟨he, hh⟩, hact⟩
  | reject caller rid now =>
    show AtMostOneActivePerPair (rejectRequest db caller rid now).1.employeeAffiliations
    rw [(rejectRequest_effects db caller rid now).2.2.1]; exact h
  | ret caller aid now =>
    show AtMostOneActivePerPair (returnAsset db caller aid now).1.employeeAffiliations
    rw [(returnAsset_effects db caller aid now).1]; exact h
  | submit caller aid note now =>
    show AtMostOneActivePerPair (submitRequest db caller aid note now).1.employeeAffiliations
    rw [(submitRequest_effects db caller aid note now).2.2.1]; exact h
  | remove caller e =>
    show AtMostOneActivePerPair (removeEmployee db caller e).1.employeeAffiliations
    rcases (removeEmployee_effects db caller e).2.2.2 with heq | heq
    · rw [heq]; exact h
    · rw [heq]
      refine pairwise_updateFirst _ _ _ h ?_ ?_
      · intro a b _ _ _ hact _
        simp at hact
      · intro a b hr he hh hacta hactb
        simp at hactb

/-- C6 amended: across any sequence of handler calls, at every moment there
is at most one `active` EmployeeAffiliation document per
(employeeEmail, hrEmail) pair — a removal inactivates, and a later
re-approval inserts a fresh active document (so documents do accumulate,
but active ones never duplicate). -/
theorem C6_amended_at_most_one_active_affiliation (db : DB) (ops : List Op)
    (h : AtMostOneActivePerPair db.employeeAffiliations) :
    AtMostOneActivePerPair (applyOps db ops).employeeAffiliations := by
  induction ops generalizing db with
  | nil => exact h
  | cons op ops ih =>
    rw [applyOps_cons]
    exact ih _ (atMostOneActive_applyOp db op h)

/-- The inductive inventory invariant: every asset has a non-negative
`availableQuantity` and `availableQuantity` plus the number of still-out
(`status = "assigned"`) assignment documents for it stays within
`quantity`; document ids are unique per collection and below the fresh-id
counter. -/
def InventoryInv (db : DB) : Prop :=
  (∀ a ∈ db.assets, 0 ≤ a.availableQuantity ∧
    a.availableQuantity +
      (db.assignedAssets.countP
        (fun d => d.assetId == a.id && d.status == "assigned") : Int)
      ≤ a.quantity) ∧
  (db.assets.map Asset.id).Nodup ∧
  (db.assignedAssets.map AssignedAsset.id).Nodup ∧
  ∀ d ∈ db.assignedAssets, d.id < db.nextId

/-- `InventoryInv` transports along equal assets/assignments and a
non-decreasing id counter. -/
theorem InventoryInv_congr (db db' : DB) (h1 : db'.assets = db.assets)
    (h2 : db'.assignedAssets = db.assignedAssets)
    (h3 : db.nextId ≤ db'.nextId) (h : InventoryInv db) : InventoryInv db' := by
  obtain ⟨hb, hA, hD, hf⟩ := h
  refine ⟨?_, ?_, ?_, ?_⟩
  · rw [h1, h2]; exact hb
  · rw [h1]; exact hA
  · rw [h2]; exact hD
  · rw [h2]
    intro d hd
    exact lt_of_lt_of_le (hf d hd) h3

/-- The approve success path preserves `InventoryInv`: the decremented asset
had `availableQuantity ≥ 1` and gains one still-out assignment, so the sum
is unchanged. -/
theorem InventoryInv_approve_success (db db' : DB) (asset : Asset)
    (d : AssignedAsset)
    (hfound : db.assets.find? (fun a => a.id == d.assetId) = some asset)
    (havail : ¬ asset.availableQuantity < 1)
    (hstatus : d.status = "assigned")
    (hdid : d.id = db.nextId)
    (hassets : db'.assets = updateFirst (fun a => a.id == asset.id)
      (fun a => { a with availableQuantity := a.availableQuantity - 1 }) db.assets)
    (hassigned : db'.assignedAssets = db.assignedAssets ++ [d])
    (hnext : db.nextId < db'.nextId)
    (hinv : InventoryInv db) : InventoryInv db' := by
  obtain ⟨hbounds, hndA, hndD, hfresh⟩ := hinv
  have hassetmem := List.mem_of_find?_eq_some hfound
  have hassetid : asset.id = d.assetId := by
    have := List.find?_some hfound
    simpa using this
  have hcnt : ∀ n : Nat,
      (db'.assignedAssets.countP
        (fun dd => dd.assetId == n && dd.status == "assigned") : Int) =
      (db.assignedAssets.countP
        (fun dd => dd.assetId == n && dd.status == "assigned") : Int) +
      (if d.assetId = n then 1 else 0) := by
    intro n
    rw [hassigned, List.countP_append]
    push_cast
    congr 1
    by_cases hdn : d.assetId = n
    · simp [List.countP_cons, hdn, hstatus]
    · simp [List.countP_cons, hdn]
  refine ⟨?_, ?_, ?_, ?_⟩
  · intro a' ha'
    rw [hassets, updateFirst_key_eq_map Asset.id _ asset.id db.assets hndA] at ha'
    rcases List.mem_map.mp ha' with ⟨x, hx, hx'⟩
    by_cases hxid : x.id = asset.id
    · have hxa : x = asset := List.inj_on_of_nodup_map hndA hx hassetmem hxid
      rw [if_pos hxid] at hx'
      subst hx'
      rcases hbounds x hx with ⟨h0, hsum⟩
      have havailx : ¬ x.availableQuantity < 1 := hxa ▸ havail
      have hdx : d.assetId = x.id := by rw [hxid, ← hassetid]
      show 0 ≤ x.availableQuantity - 1 ∧
        x.availableQuantity - 1 +
          (db'.assignedAssets.countP
            (fun dd => dd.assetId == x.id && dd.status == "assigned") : Int)
          ≤ x.quantity
      rw [hcnt x.id, if_pos hdx]
      constructor
      · omega
      · omega
    · rw [if_neg hxid] at hx'
      subst hx'
      rcases hbounds x hx with ⟨h0, hsum⟩
      have hdx : ¬ d.assetId = x.id := fun he => hxid (hassetid.trans he).symm
      refine ⟨h0, ?_⟩
      rw [hcnt x.id, if_neg hdx]
      omega
  · rw [hassets, map_updateFirst Asset.id (fun a => a.id == asset.id)
      (fun a => { a with availableQuantity := a.availableQuantity - 1 })
      (fun x => rfl)]
    exact hndA
  · rw [hassigned, List.map_append]
    rw [List.nodup_append]
    refine ⟨hndD, List.nodup_singleton _, ?_⟩
    intro i hi
    simp only [List.map_cons, List.map_nil, List.mem_singleton]
    intro hieq
    rcases List.mem_map.mp hi with ⟨e, he, hei⟩
    have := hfresh e he
    omega
  · rw [hassigned]
    intro x hx
    rcases List.mem_append.mp hx with h' | h'
    · exact lt_trans (hfresh x h') hnext
    · rcases List.mem_singleton.mp h' with rfl
      omega

/-- The return success path preserves `InventoryInv`: the incremented asset
loses exactly one still-out assignment (the returned one), so the sum is
unchanged. -/
theorem InventoryInv_return_success (db db' : DB) (caller : String)
    (aid : Nat) (t : Nat) (d : AssignedAsset)
    (hfound : db.assignedAssets.find?
      (fun a => a.id == aid && a.employeeEmail == caller) = some d)
    (hstatus : d.status = "assigned")
    (hassets : db'.assets = updateFirst (fun a => a.id == d.assetId)
      (fun a => { a with availableQuantity := a.availableQuantity + 1 }) db.assets)
    (hassigned : db'.assignedAssets = updateFirst (fun a => a.id == aid)
      (fun a => { a with status := "returned", returnDate := some t })
      db.assignedAssets)
    (hnext : db'.nextId = db.nextId)
    (hinv : InventoryInv db) : InventoryInv db' := by
  obtain ⟨hbounds, hndA, hndD, hfresh⟩ := hinv
  have hdmem := List.mem_of_find?_eq_some hfound
  have hdid : d.id = aid := by
    have := List.find?_some hfound
    simp only [Bool.and_eq_true, beq_iff_eq] at this
    exact this.1
  have hfindid : db.assignedAssets.find? (fun a => a.id == aid) = some d :=
    find?_key_of_nodup AssignedAsset.id db.assignedAssets hndD d hdmem hdid
  have hcnt : ∀ n : Nat,
      (db'.assignedAssets.countP
        (fun dd => dd.assetId == n && dd.status == "assigned") : Int) =
      (db.assignedAssets.countP
        (fun dd => dd.assetId == n && dd.status == "assigned") : Int) -
      (if d.assetId = n then 1 else 0) := by
    intro n
    rw [hassigned, countP_updateFirst _ _ _ db.assignedAssets, hfindid]
    by_cases hdn : d.assetId = n
    · simp [hdn, hstatus]
      ring
    · simp [hdn]
  refine ⟨?_, ?_, ?_, ?_⟩
  · intro a' ha'
    rw [hassets] at ha'
    rw [updateFirst_key_eq_map Asset.id _ d.assetId db.assets hndA] at ha'
    rcases List.mem_map.mp ha' with ⟨x, hx, hx'⟩
    by_cases hxid : x.id = d.assetId
    · rw [if_pos hxid] at hx'
      subst hx'
      rcases hbounds x hx with ⟨h0, hsum⟩
      show 0 ≤ x.availableQuantity + 1 ∧
        x.availableQuantity + 1 +
          (db'.assignedAssets.countP
            (fun dd => dd.assetId == x.id && dd.status == "assigned") : Int)
          ≤ x.quantity
      rw [hcnt x.id, if_pos hxid.symm]
      constructor
      · omega
      · omega
    · rw [if_neg hxid] at hx'
      subst hx'
      rcases hbounds x hx with ⟨h0, hsum⟩
      refine ⟨h0, ?_⟩
      rw [hcnt x.id, if_neg (fun he => hxid he.symm)]
      omega
  · rw [hassets, map_updateFirst Asset.id (fun a => a.id == d.assetId)
      (fun a => { a with availableQuantity := a.availableQuantity + 1 })
      (fun x => rfl)]
    exact hndA
  · rw [hassigned, map_updateFirst AssignedAsset.id (fun a => a.id == aid)
      (fun a => { a with status := "returned", returnDate := some t })
      (fun x => rfl)]
    exact hndD
  · rw [hassigned, hnext]
    intro x hx
    rcases mem_updateFirst hx with h' | ⟨y, hy, _, hxy⟩
    · exact hfresh x h'
    · subst hxy
      exact hfresh y hy

/-- Every single handler call preserves `InventoryInv`. -/
theorem inventoryInv_applyOp (db : DB) (op : Op) (h : InventoryInv db) :
    InventoryInv (applyOp db op) := by
  cases op with
  | approve caller rid now =>
    show InventoryInv (approveRequest db caller rid now).1
    rcases approveRequest_inventory_cases db caller rid now with
      ⟨h1, h2, h3⟩ | ⟨request, asset, hfound, havail, hassets, hassigned, hnext⟩
    · exact InventoryInv_congr _ _ h1 h2 (le_of_eq h3.symm) h
    · exact InventoryInv_approve_success db _ asset _ hfound havail rfl rfl
        hassets hassigned hnext h
  | reject caller rid now =>
    show InventoryInv (rejectRequest db caller rid now).1
    rcases rejectRequest_effects db caller rid now with ⟨h1, h2, _, h3⟩
    exact InventoryInv_congr _ _ h1 h2 (le_of_eq h3.symm) h
  | ret caller aid now =>
    show InventoryInv (returnAsset db caller aid now).1
    rcases returnAsset_effects db caller aid now with ⟨_, hnext, hcase⟩
    rcases hcase with ⟨h1, h2⟩ | ⟨d, hfound, hstatus, hassets, hassigned⟩
    · exact InventoryInv_congr _ _ h1 h2 (le_of_eq hnext.symm) h
    · exact InventoryInv_return_success db _ caller aid now d hfound hstatus
        hassets hassigned hnext h
  | submit caller aid note now =>
    show InventoryInv (submitRequest db caller aid note now).1
    rcases submitRequest_effects db caller aid note now with ⟨h1, h2, _, h3⟩
    exact InventoryInv_congr _ _ h1 h2 h3 h
  | remove caller e =>
    show InventoryInv (removeEmployee db caller e).1
    rcases removeEmployee_effects db caller e with ⟨h1, h2, h3, _⟩
    exact InventoryInv_congr _ _ h1 h2 (le_of_eq h3.symm) h

/-- C1 amended: from any state satisfying the coupled inventory invariant
(`0 ≤ availableQuantity` and `availableQuantity + #still-out assignments ≤
quantity` per asset, with unique document ids below the id counter), every
sequence of handler calls preserves the invariant, and in particular
`0 ≤ availableQuantity ≤ quantity` holds for every asset after every
sequence.  The bare bounds alone are not inductive (see the
counterexample). -/
theorem C1_amended_inventory_invariant (db : DB) (ops : List Op)
    (h : InventoryInv db) :
    InventoryInv (applyOps db ops) ∧
    ∀ a ∈ (applyOps db ops).assets,
      0 ≤ a.availableQuantity ∧ a.availableQuantity ≤ a.quantity := by
  have hinv : InventoryInv (applyOps db ops) := by
    induction ops generalizing db with
    | nil => exact h
    | cons op ops ih =>
      rw [applyOps_cons]
      exact ih _ (inventoryInv_applyOp db op h)
  refine ⟨hinv, ?_⟩
  intro a ha
  rcases hinv.1 a ha with ⟨h0, hsum⟩
  have hc : (0 : Int) ≤ ((applyOps db ops).assignedAssets.countP
      (fun d => d.assetId == a.id && d.status == "assigned") : Int) :=
    Int.natCast_nonneg _
  exact ⟨h0, by omega⟩

/-- State for C1's counterexample: the asset satisfies
`0 ≤ availableQuantity ≤ quantity` (1 ≤ 1), but an `assigned` document is
already out, so the bare bounds are not inductive. -/
def dbC1 : DB := {
  users := [hrU, empU]
  assets := [{ laptop with quantity := 1, availableQuantity := 1 }]
  requests := []
  assignedAssets := [laptopAssigned]
  employeeAffiliations := [empAffiliation]
  nextId := 10 }

/-- C1 counterexample: the claim's precondition (only
`0 ≤ availableQuantity ≤ quantity`) holds at `dbC1`, yet after one
ReturnAsset call the asset has `availableQuantity = 2 > quantity = 1` —
the stated invariant is not preserved from such a state. -/
theorem C1_counterexample :
    (∀ a ∈ dbC1.assets, 0 ≤ a.availableQuantity ∧
      a.availableQuantity ≤ a.quantity) ∧
    ∃ a ∈ (applyOps dbC1 [Op.ret "emp@mail.com" 3 9]).assets,
      ¬ a.availableQuantity ≤ a.quantity := by
  constructor
  · decide
  · decide

/-- C1 witness: the amended invariant applied at `dbApprove0` over an
approve-then-return sequence (the assignment created by the approval gets
id 10). -/
theorem C1_witness :
    InventoryInv (applyOps dbApprove0
      [Op.approve "hr@corp.com" 2 1, Op.ret "emp@mail.com" 10 2]) ∧
    ∀ a ∈ (applyOps dbApprove0
        [Op.approve "hr@corp.com" 2 1, Op.ret "emp@mail.com" 10 2]).assets,
      0 ≤ a.availableQuantity ∧ a.availableQuantity ≤ a.quantity :=
  C1_amended_inventory_invariant dbApprove0
    [Op.approve "hr@corp.com" 2 1, Op.ret "emp@mail.com" 10 2]
    (by unfold InventoryInv; decide)

/-- State for C6: two approvable pending requests (ids 2 and 5, assets 1
and 6) by the same employee with the same HR. -/
def dbC6 : DB := {
  users := [hrU, empU]
  assets := [laptop, { laptop with id := 6, name := "Chair" }]
  requests := [laptopReq, { laptopReq with id := 5, assetId := 6 }]
  assignedAssets := []
  employeeAffiliations := []
  nextId := 10 }

/-- C6 counterexample: approve, remove, approve again.  The second approval
finds no *active* affiliation (the first one was set `inactive` by the
removal) and inserts a second document for the same
(employeeEmail, hrEmail) pair — two documents were created, refuting
"created at most once / reuse rather than duplicate". -/
theorem C6_counterexample :
    ((applyOps dbC6 [Op.approve "hr@corp.com" 2 1,
        Op.remove "hr@corp.com" "emp@mail.com",
        Op.approve "hr@corp.com" 5 2]).employeeAffiliations.filter
      (fun a => a.employeeEmail == "emp@mail.com" && a.hrEmail == "hr@corp.com")).length
      = 2 := by decide

/-- C6 witness: the amended invariant applied to the same concrete state
and operation sequence. -/
theorem C6_witness :
    AtMostOneActivePerPair (applyOps dbC6 [Op.approve "hr@corp.com" 2 1,
      Op.remove "hr@corp.com" "emp@mail.com",
      Op.approve "hr@corp.com" 5 2]).employeeAffiliations :=
  C6_amended_at_most_one_active_affiliation dbC6 _
    (by unfold AtMostOneActivePerPair; decide)

end AssetVerse
